import Mathlib

/-!
Verification development for the UK house-prices dashboard pipeline
(`streamlit_app.py`).  The data-preparation pipeline is embedded shallowly:

* `WideTable` / `melt`          — spreadsheet sheets and `DataFrame.melt`
* `stripYearLabel`              — `columns.str.replace('Year ending Sep ', '')`
* `mergeTidy`                   — `merge(how='inner', on=['Code','Name','Year'])`
* `sortNameYear` / `computePct` — `sort_values(['Name','Year'])` and
                                  `groupby('Name')['HousePrice'].pct_change()`
* `filterView`                  — `df[isin(regions) & Year.between(y0, y1)]`
* `insightBlock` / `idxmaxPct`  — the guarded insights block (lines 48-54)
* `percentIncrease` / `summaryMetric` — the per-region first-to-last summary
                                  and the sidebar mode metric (lines 107-130)

Machine floats are modelled by `PVal`: an exact rational together with the
non-finite values `nan`, `pinf`, `ninf` that NumPy division can produce.
-/

/-- A float-like value: an exact rational or one of NumPy's non-finite values. -/
inductive PVal where
  | nan : PVal
  | pinf : PVal
  | ninf : PVal
  | num : ℚ → PVal
deriving DecidableEq

/-- Round half to even at integer precision, as `numpy.round` does. -/
def roundEven (x : ℚ) : ℤ :=
  let n : ℤ := ⌊x⌋
  let f : ℚ := x - n
  if f < 1/2 then n
  else if 1/2 < f then n + 1
  else if n % 2 = 0 then n else n + 1

/-- `round(x, 2)`: round to two decimal places (half to even). -/
def rnd2 (x : ℚ) : ℚ := (roundEven (x * 100) : ℚ) / 100

/-- One step of `pct_change() * 100` rounded to 2 dp: the value attached to a
row whose previous same-region price is `prev` and whose own price is `cur`.
Float division by zero yields a non-finite value, which `round` keeps. -/
def pctStep (prev cur : ℚ) : PVal :=
  if prev = 0 then
    if 0 < cur then .pinf else if cur < 0 then .ninf else .nan
  else .num (rnd2 ((cur - prev) / prev * 100))

/-- A wide sheet after the loader: `Code`/`Name` key plus one value per
year column, the value lists aligned with `yearCols`. -/
structure WideTable where
  yearCols : List String
  rows : List (String × String × List ℚ)
deriving DecidableEq

/-- One melted row: `{Code, Name, Year (still a string label), value}`. -/
structure TidyRec where
  code : String
  name : String
  year : String
  value : ℚ
deriving DecidableEq

/-- Does the character list start with the given pattern? -/
def leadsWith : List Char → List Char → Bool
  | [], _ => true
  | _ :: _, [] => false
  | p :: ps, c :: cs => p == c && leadsWith ps cs

/-- Remove every occurrence of a pattern from a character list (fuel-driven
so that the kernel can evaluate it; `fuel = length` always suffices). -/
def dropPatAux (pat : List Char) : Nat → List Char → List Char
  | _, [] => []
  | 0, l => l
  | fuel + 1, c :: cs =>
    if leadsWith pat (c :: cs) then dropPatAux pat fuel ((c :: cs).drop pat.length)
    else c :: dropPatAux pat fuel cs

/-- `s.str.replace(pat, '', regex=False)`: delete all occurrences of `pat`. -/
def removeAllOcc (pat s : String) : String :=
  String.mk (dropPatAux pat.data s.data.length s.data)

/-- Line 20: strip the fixed text `"Year ending Sep "` from a column label. -/
def stripYearLabel (s : String) : String := removeAllOcc "Year ending Sep " s

/-- `DataFrame.melt(id_vars=['Code','Name'])`: one record per
(year-column, row) pair, stacked column-major as pandas does. -/
def melt (t : WideTable) : List TidyRec :=
  t.yearCols.enum.flatMap fun ji =>
    t.rows.filterMap fun row =>
      (row.2.2.get? ji.1).map fun v => ⟨row.1, row.2.1, ji.2, v⟩

/-- Line 20-21: the house-price sheet has its year labels stripped before
melting. -/
def reshape1a (t : WideTable) : List TidyRec :=
  melt ⟨t.yearCols.map stripYearLabel, t.rows⟩

/-- Line 22: the income sheet is melted as-is; its column labels are NOT
stripped in the source. -/
def reshape1b (t : WideTable) : List TidyRec :=
  melt t

/-- The `(Code, Name, Year)` merge key of a tidy record. -/
def TidyRec.key3 (r : TidyRec) : String × String × String := (r.code, r.name, r.year)

/-- A merged row before the `Year` cast: both metrics under one key. -/
structure MRec where
  code : String
  name : String
  year : String
  housePrice : ℚ
  grossIncome : ℚ
deriving DecidableEq

/-- Line 24: `df_1a_melted.merge(df_1b_melted, how='inner',
on=['Code','Name','Year'])` — every left row paired with every right row
sharing its key. -/
def mergeTidy (l₁ l₂ : List TidyRec) : List MRec :=
  l₁.flatMap fun a =>
    (l₂.filter fun b => decide (b.key3 = a.key3)).map fun b =>
      ⟨a.code, a.name, a.year, a.value, b.value⟩

/-- A joined row after `df['Year'].astype(int)`. -/
structure JRec where
  code : String
  name : String
  year : ℤ
  housePrice : ℚ
  grossIncome : ℚ
deriving DecidableEq

/-- A joined row together with its `HousePrice_Pct_Change` column. -/
structure JRecP where
  code : String
  name : String
  year : ℤ
  housePrice : ℚ
  grossIncome : ℚ
  pctChange : PVal
deriving DecidableEq

/-- Attach a pct-change value to a joined row. -/
def JRec.withPct (r : JRec) (p : PVal) : JRecP :=
  ⟨r.code, r.name, r.year, r.housePrice, r.grossIncome, p⟩

/-- Strict lexicographic order on character lists by code point — how
pandas compares the `Name` strings when sorting. -/
def clLt : List Char → List Char → Prop
  | [], [] => False
  | [], _ :: _ => True
  | _ :: _, [] => False
  | c :: cs, d :: ds => c < d ∨ (c = d ∧ clLt cs ds)

/-- `clLt` is decidable by structural recursion (so it evaluates). -/
def clLtDec : (a b : List Char) → Decidable (clLt a b)
  | [], [] => .isFalse fun h => h
  | [], _ :: _ => .isTrue trivial
  | _ :: _, [] => .isFalse fun h => h
  | c :: cs, d :: ds =>
    have : Decidable (clLt cs ds) := clLtDec cs ds
    inferInstanceAs (Decidable (c < d ∨ (c = d ∧ clLt cs ds)))

instance : DecidableRel clLt := clLtDec

/-- Lexicographic string comparison (what pandas uses on `Name`). -/
def strLt (a b : String) : Prop := clLt a.data b.data

instance : DecidableRel strLt := fun a b => clLtDec a.data b.data

/-- `sort_values(by=['Name','Year'])`: the (Name, Year) non-strict order. -/
def keyLe (a b : JRec) : Prop :=
  strLt a.name b.name ∨ (a.name = b.name ∧ a.year ≤ b.year)

/-- The strict (Name, Year) order, used to show sorted outputs are unique. -/
def keyLt (a b : JRec) : Prop :=
  strLt a.name b.name ∨ (a.name = b.name ∧ a.year < b.year)

instance : DecidableRel keyLe := fun a b => by unfold keyLe; infer_instance

instance : DecidableRel keyLt := fun a b => by unfold keyLt; infer_instance

/-- Line 28: `df = df.sort_values(by=['Name', 'Year'])`. -/
def sortNameYear (l : List JRec) : List JRec := l.insertionSort keyLe

/-- The running environment of `groupby('Name').pct_change()`: for each
region name already seen, its most recent price (head of the list wins). -/
def pushPrice (env : List (String × ℚ)) (r : JRec) : List (String × ℚ) :=
  (r.name, r.housePrice) :: env

/-- Worker for `computePct`: each row's pct change comes from the most
recent earlier row with the same `Name`, or is NaN when there is none. -/
def computePctGo : List JRec → List (String × ℚ) → List JRecP
  | [], _ => []
  | r :: rs, env =>
    (match env.lookup r.name with
      | none => r.withPct .nan
      | some p => r.withPct (pctStep p r.housePrice)) :: computePctGo rs (pushPrice env r)

/-- Line 29: `df['HousePrice_Pct_Change'] =
round(df.groupby('Name')['HousePrice'].pct_change() * 100, 2)`. -/
def computePct (l : List JRec) : List JRecP := computePctGo l []

/-- Lines 28-29 together: sort the joined table, then derive the column. -/
def pipelinePct (l : List JRec) : List JRecP := computePct (sortNameYear l)

/-- Line 34: `df[(df['Name'].isin(regions)) &
(df['Year'].between(y0, y1))]` — `between` is inclusive on both ends. -/
def filterView (regions : List String) (y0 y1 : ℤ) (l : List JRecP) : List JRecP :=
  l.filter fun r => regions.contains r.name && decide (y0 ≤ r.year) && decide (r.year ≤ y1)

/-- Is `b.pctChange` strictly greater than `a` under NumPy's total order on
non-NaN floats (`ninf < finite < pinf`)?  NaN never wins a comparison. -/
def pvalGt : PVal → PVal → Bool
  | .nan, _ => false
  | _, .nan => true
  | .pinf, .pinf => false
  | .pinf, _ => true
  | _, .pinf => false
  | .num a, .num b => decide (b < a)
  | .num _, .ninf => true
  | .ninf, _ => false

/-- `Series.idxmax()` on the `HousePrice_Pct_Change` column: skip NaNs,
return the first row achieving the maximum; `none` models the `ValueError`
raised when every value is NaN. -/
def idxmaxPct (l : List JRecP) : Option JRecP :=
  l.foldl
    (fun acc r =>
      match r.pctChange with
      | .nan => acc
      | v =>
        match acc with
        | none => some r
        | some best => if pvalGt v best.pctChange then some r else acc)
    none

/-- `Series.idxmin()`, symmetrically. -/
def idxminPct (l : List JRecP) : Option JRecP :=
  l.foldl
    (fun acc r =>
      match r.pctChange with
      | .nan => acc
      | v =>
        match acc with
        | none => some r
        | some best => if pvalGt best.pctChange v then some r else acc)
    none

/-- Result of the insights block: either the "no data" warning or the
max/min rows. -/
inductive InsightOut where
  | noData : InsightOut
  | insights : JRecP → JRecP → InsightOut
deriving DecidableEq

/-- Lines 48-54: `if df_filtered.empty: warning else: idxmax/idxmin ...`.
`Except.error` models the uncaught `ValueError` from `idxmax` when every
pct-change value in a non-empty view is NaN. -/
def insightBlock (fv : List JRecP) : Except Unit InsightOut :=
  if fv.isEmpty then .ok .noData
  else
    match idxmaxPct fv, idxminPct fv with
    | some mx, some mn => .ok (.insights mx mn)
    | _, _ => .error ()

/-- `Series.unique()`: region names in first-occurrence order. -/
def uniqueNames (fv : List JRecP) : List String :=
  fv.foldl (fun acc r => if acc.contains r.name then acc else acc ++ [r.name]) []

/-- One row of the per-region first-to-last summary (lines 114-121). -/
structure SummaryRow where
  region : String
  startYear : ℤ
  endYear : ℤ
  startPrice : ℚ
  endPrice : ℚ
  pctChange : PVal
deriving DecidableEq

/-- `region_data.sort_values('Year')` inside the summary loop. -/
def sortYear (l : List JRecP) : List JRecP :=
  l.insertionSort fun a b => a.year ≤ b.year

/-- Lines 110-121 for one region: sort its rows by year, take the first and
last prices, and compute `((end - start) / start) * 100 if start else nan`,
rounded to 2 dp.  (`round(nan, 2)` is NaN, hence the branch.) -/
def regionRow (fv : List JRecP) (region : String) : Option SummaryRow :=
  match sortYear (fv.filter fun r => r.name == region) with
  | [] => none
  | r :: rs =>
    let last := (r :: rs).getLast (by simp)
    some
      { region := region
        startYear := r.year
        endYear := last.year
        startPrice := r.housePrice
        endPrice := last.housePrice
        pctChange :=
          if r.housePrice = 0 then .nan
          else .num (rnd2 ((last.housePrice - r.housePrice) / r.housePrice * 100)) }

/-- Lines 108-123: `percent_increase_summary`, one row per region present in
the filtered view. -/
def percentIncrease (fv : List JRecP) : List SummaryRow :=
  (uniqueNames fv).filterMap (regionRow fv)

/-- `Series.mode()` then `.iloc[0]`: drop NaNs, keep the values of maximal
multiplicity, return the smallest of them (pandas sorts the modes); the
`IndexError` of `.iloc[0]` on an empty mode series is `Except.error`. -/
def modeIloc0 (vals : List PVal) : Except String PVal :=
  let known := vals.filter fun v => v ≠ PVal.nan
  match known with
  | [] => .error "IndexError"
  | v :: vs =>
    .ok ((v :: vs).foldl
      (fun best x =>
        if known.count x > known.count best then x
        else if known.count x = known.count best && pvalGt best x then x
        else best)
      v)

/-- Line 130: `pct_increase_df['% Change'].mode().iloc[0]`.  When the
filtered view is empty the summary list is empty, so `pd.DataFrame([])`
has no columns at all and the column access raises `KeyError`. -/
def summaryMetric (fv : List JRecP) : Except String PVal :=
  let rows := percentIncrease fv
  if rows.isEmpty then .error "KeyError"
  else modeIloc0 (rows.map fun r => r.pctChange)

/-- Mean of a list of rationals, NaN when empty (`Series.mean()` on an
empty series). -/
def meanQ (l : List ℚ) : PVal :=
  if l.isEmpty then .nan else .num (l.sum / l.length)

/-- Lines 128-129: the sidebar average-price / average-earnings metrics. -/
def avgHousePrice (fv : List JRecP) : PVal := meanQ (fv.map fun r => r.housePrice)

/-- Numeric value of a run of decimal digits; `none` when empty or when a
non-digit appears. -/
def digitsVal : List Char → Option ℕ
  | [] => none
  | l =>
    l.foldl
      (fun acc c => acc.bind fun n => if c.isDigit then some (n * 10 + (c.toNat - 48)) else none)
      (some 0)

/-- `astype(int)` applied to one string label: an optional minus sign
followed by decimal digits, otherwise the cast fails. -/
def strToInt? (s : String) : Option ℤ :=
  match s.data with
  | '-' :: rest => (digitsVal rest).map fun n => -(n : ℤ)
  | l => (digitsVal l).map fun n => (n : ℤ)

/-- The (Name, Year) sort key of a joined row. -/
def JRec.key2 (r : JRec) : String × ℤ := (r.name, r.year)

/- Concrete tables used by the witnesses and counterexamples below. -/

/-- A small house-price sheet with prefixed year labels. -/
def exSheet1a : WideTable :=
  ⟨["Year ending Sep 2023", "Year ending Sep 2024"], [("E1", "London", [95, 100])]⟩

/-- A small income sheet with a prefixed year label. -/
def exSheet1b : WideTable := ⟨["Year ending Sep 2020"], [("E1", "London", [100])]⟩

/-- Region "A", year 2000, price 100. -/
def exA2000 : JRec := ⟨"E1", "A", 2000, 100, 30⟩

/-- Region "A", year 2001, price 110. -/
def exA2001 : JRec := ⟨"E1", "A", 2001, 110, 31⟩

/-- Region "A", year 2002, price 99. -/
def exA2002 : JRec := ⟨"E1", "A", 2002, 99, 32⟩

/-- The spec's example scenario, deliberately out of order. -/
def exDf2 : List JRec := [exA2001, exA2002, exA2000]

/-- Region "Z" with a zero price in year 2000. -/
def exZ2000 : JRec := ⟨"E2", "Z", 2000, 0, 30⟩

/-- Region "Z", year 2001, price 50. -/
def exZ2001 : JRec := ⟨"E2", "Z", 2001, 50, 31⟩

/-- The zero-division example scenario, out of order. -/
def exZdf : List JRec := [exZ2001, exZ2000]

/-- Tidy records for the join example: two common keys and one key present
only on the left. -/
def exL1 : List TidyRec := [⟨"E1", "A", "2000", 100⟩, ⟨"E1", "A", "2001", 110⟩, ⟨"E9", "X", "2000", 500⟩]

/-- The right side of the join example: the two common keys and one key
present only on the right. -/
def exL2 : List TidyRec := [⟨"E1", "A", "2000", 30⟩, ⟨"E1", "A", "2001", 31⟩, ⟨"E8", "Y", "2000", 40⟩]

/-- A filtered-view row of region "Z0" with a zero start price. -/
def exZ0a : JRecP := ⟨"E3", "Z0", 2000, 0, 10, .nan⟩

/-- The later row of region "Z0". -/
def exZ0b : JRecP := ⟨"E3", "Z0", 2001, 50, 11, .pinf⟩

/-- A filtered view containing only region "Z0", out of year order. -/
def exFvZ0 : List JRecP := [exZ0b, exZ0a]

/-! Order properties of the sort key. -/

theorem clLt_trans : ∀ (a b c : List Char), clLt a b → clLt b c → clLt a c := by
  intro a
  induction a with
  | nil => intro b c hab hbc; cases b <;> cases c <;> simp_all [clLt]
  | cons x xs ih =>
    intro b c hab hbc
    cases b with
    | nil => simp [clLt] at hab
    | cons y ys =>
      cases c with
      | nil => simp [clLt] at hbc
      | cons z zs =>
        simp only [clLt] at hab hbc ⊢
        rcases hab with h₁ | ⟨e₁, h₁⟩ <;> rcases hbc with h₂ | ⟨e₂, h₂⟩
        · exact Or.inl (h₁.trans h₂)
        · exact Or.inl (e₂ ▸ h₁)
        · exact Or.inl (by rw [e₁]; exact h₂)
        · exact Or.inr ⟨e₁.trans e₂, ih ys zs h₁ h₂⟩

theorem clLt_asymm : ∀ (a b : List Char), clLt a b → ¬ clLt b a := by
  intro a
  induction a with
  | nil => intro b hab; cases b <;> simp_all [clLt]
  | cons x xs ih =>
    intro b hab hba
    cases b with
    | nil => simp [clLt] at hab
    | cons y ys =>
      simp only [clLt] at hab hba
      rcases hab with h₁ | ⟨e₁, h₁⟩ <;> rcases hba with h₂ | ⟨e₂, h₂⟩
      · exact absurd (h₁.trans h₂) (lt_irrefl x)
      · exact absurd (e₂ ▸ h₁) (lt_irrefl y)
      · exact absurd (e₁ ▸ h₂) (lt_irrefl y)
      · exact ih ys h₁ h₂

theorem clLt_total : ∀ (a b : List Char), clLt a b ∨ a = b ∨ clLt b a := by
  intro a
  induction a with
  | nil => intro b; cases b <;> simp [clLt]
  | cons x xs ih =>
    intro b
    cases b with
    | nil => simp [clLt]
    | cons y ys =>
      rcases lt_trichotomy x y with h | h | h
      · exact Or.inl (Or.inl h)
      · rcases ih ys with h' | h' | h'
        · exact Or.inl (Or.inr ⟨h, h'⟩)
        · exact Or.inr (Or.inl (by rw [h, h']))
        · exact Or.inr (Or.inr (Or.inr ⟨h.symm, h'⟩))
      · exact Or.inr (Or.inr (Or.inl h))

theorem strLt_total (a b : String) : strLt a b ∨ a = b ∨ strLt b a := by
  rcases clLt_total a.data b.data with h | h | h
  · exact Or.inl h
  · exact Or.inr (Or.inl (String.ext h))
  · exact Or.inr (Or.inr h)

instance : IsTotal JRec keyLe :=
  ⟨fun a b => by
    unfold keyLe
    rcases strLt_total a.name b.name with h | h | h
    · exact Or.inl (Or.inl h)
    · rcases le_total a.year b.year with hy | hy
      · exact Or.inl (Or.inr ⟨h, hy⟩)
      · exact Or.inr (Or.inr ⟨h.symm, hy⟩)
    · exact Or.inr (Or.inl h)⟩

instance : IsTrans JRec keyLe :=
  ⟨fun a b c hab hbc => by
    unfold keyLe at *
    rcases hab with h₁ | ⟨e₁, y₁⟩
    · rcases hbc with h₂ | ⟨e₂, _⟩
      · exact Or.inl (clLt_trans _ _ _ h₁ h₂)
      · exact Or.inl (e₂ ▸ h₁)
    · rcases hbc with h₂ | ⟨e₂, y₂⟩
      · exact Or.inl (show strLt a.name c.name by rw [show a.name = b.name from e₁]; exact h₂)
      · exact Or.inr ⟨e₁.trans e₂, y₁.trans y₂⟩⟩

instance : IsAntisymm JRec keyLt :=
  ⟨fun a b hab hba => by
    unfold keyLt at *
    rcases hab with h₁ | ⟨e₁, y₁⟩
    · rcases hba with h₂ | ⟨e₂, _⟩
      · exact absurd h₂ (clLt_asymm _ _ h₁)
      · exact absurd (e₂ ▸ h₁) fun h => clLt_asymm _ _ h h
    · rcases hba with h₂ | ⟨e₂, y₂⟩
      · exact absurd (e₁ ▸ h₂) fun h => clLt_asymm _ _ h h
      · exact absurd (y₁.trans y₂) (lt_irrefl _)⟩

/-! Structure lemmas for the derived-metric computation. -/

theorem computePctGo_append (xs ys : List JRec) (env : List (String × ℚ)) :
    computePctGo (xs ++ ys) env = computePctGo xs env ++ computePctGo ys (xs.foldl pushPrice env) := by
  induction xs generalizing env with
  | nil => simp [computePctGo]
  | cons r rs ih => simp [computePctGo, ih]

theorem computePctGo_length (xs : List JRec) (env : List (String × ℚ)) :
    (computePctGo xs env).length = xs.length := by
  induction xs generalizing env with
  | nil => simp [computePctGo]
  | cons r rs ih => simp [computePctGo, ih]

theorem lookup_foldl_pushPrice (xs : List JRec) (env : List (String × ℚ)) (nm : String)
    (h : ∀ x ∈ xs, x.name ≠ nm) :
    (xs.foldl pushPrice env).lookup nm = env.lookup nm := by
  induction xs generalizing env with
  | nil => rfl
  | cons r rs ih =>
    have hr : r.name ≠ nm := h r (List.mem_cons_self r rs)
    have hrs : ∀ x ∈ rs, x.name ≠ nm := fun x hx => h x (List.mem_cons_of_mem r hx)
    simp only [List.foldl_cons]
    rw [ih (pushPrice env r) hrs]
    have hb : (nm == r.name) = false := beq_eq_false_iff_ne.mpr (Ne.symm hr)
    simp [pushPrice, List.lookup, hb]

theorem pipelinePct_get_adjacent (df pre : List JRec) (r₁ r₂ : JRec) (post : List JRec)
    (hs : sortNameYear df = pre ++ r₁ :: r₂ :: post) (hn : r₂.name = r₁.name) :
    (pipelinePct df)[pre.length + 1]? =
      some (r₂.withPct (pctStep r₁.housePrice r₂.housePrice)) := by
  unfold pipelinePct computePct
  rw [hs, computePctGo_append]
  rw [List.getElem?_append_right (by rw [computePctGo_length]; omega)]
  rw [computePctGo_length]
  simp only [Nat.add_sub_cancel_left]
  simp [computePctGo, pushPrice, List.lookup, beq_iff_eq, hn]

theorem pipelinePct_get_first (df pre : List JRec) (r : JRec) (post : List JRec)
    (hs : sortNameYear df = pre ++ r :: post) (hfirst : ∀ x ∈ pre, x.name ≠ r.name) :
    (pipelinePct df)[pre.length]? = some (r.withPct .nan) := by
  unfold pipelinePct computePct
  rw [hs, computePctGo_append]
  rw [List.getElem?_append_right (by rw [computePctGo_length])]
  rw [computePctGo_length]
  simp only [Nat.sub_self]
  have : (pre.foldl pushPrice []).lookup r.name = none :=
    lookup_foldl_pushPrice pre [] r.name hfirst
  simp [computePctGo, this]

/-! Uniqueness of the sorted table when the (Name, Year) keys are distinct. -/

theorem sorted_keyLt_of_sorted_keyLe (m : List JRec)
    (hle : List.Sorted keyLe m) (hnd : (m.map JRec.key2).Nodup) :
    List.Sorted keyLt m := by
  have hne : m.Pairwise fun a b => a.key2 ≠ b.key2 := (List.pairwise_map).1 hnd
  refine (hle.and hne).imp ?_
  rintro a b ⟨hab, hne'⟩
  rcases hab with h | ⟨e, hy⟩
  · exact Or.inl h
  · refine Or.inr ⟨e, lt_of_le_of_ne hy fun hyy => hne' ?_⟩
    unfold JRec.key2
    rw [e, hyy]

theorem sortNameYear_eq_of_perm (l l' : List JRec) (hp : List.Perm l' l)
    (hnd : (l.map JRec.key2).Nodup) :
    sortNameYear l' = sortNameYear l := by
  have hp₁ : List.Perm (sortNameYear l') (sortNameYear l) :=
    ((l'.perm_insertionSort keyLe).trans hp).trans (l.perm_insertionSort keyLe).symm
  have hnd₂ : ((sortNameYear l).map JRec.key2).Nodup :=
    (((l.perm_insertionSort keyLe).symm).map JRec.key2).nodup hnd
  have hnd₁ : ((sortNameYear l').map JRec.key2).Nodup := ((hp₁.map JRec.key2).symm).nodup hnd₂
  exact List.eq_of_perm_of_sorted hp₁
    (sorted_keyLt_of_sorted_keyLe _ (List.sorted_insertionSort keyLe l') hnd₁)
    (sorted_keyLt_of_sorted_keyLe _ (List.sorted_insertionSort keyLe l) hnd₂)

/-! Counting lemmas for the inner join. -/

theorem filter_key_length (l : List TidyRec) (k : String × String × String)
    (hnd : (l.map TidyRec.key3).Nodup) :
    (l.filter fun b => decide (b.key3 = k)).length =
      if k ∈ l.map TidyRec.key3 then 1 else 0 := by
  induction l with
  | nil => simp
  | cons b bs ih =>
    simp only [List.map_cons, List.nodup_cons] at hnd
    by_cases hb : b.key3 = k
    · have hk : k ∉ bs.map TidyRec.key3 := hb ▸ hnd.1
      have : (bs.filter fun x => decide (x.key3 = k)).length = 0 := by
        rw [ih hnd.2, if_neg hk]
      simp [List.filter_cons, hb, this, hk]
    · have := ih hnd.2
      simp only [List.filter_cons, decide_eq_true_eq, hb, if_false, List.map_cons]
      rw [this]
      have : (k ∈ b.key3 :: bs.map TidyRec.key3) ↔ k ∈ bs.map TidyRec.key3 := by
        simp [List.mem_cons, Ne.symm hb]
      simp only [List.mem_cons] at this ⊢
      rcases Classical.em (k ∈ bs.map TidyRec.key3) with h | h <;> simp [h, Ne.symm hb]

theorem mergeTidy_length (l₁ l₂ : List TidyRec) (hnd : (l₂.map TidyRec.key3).Nodup) :
    (mergeTidy l₁ l₂).length =
      (l₁.map TidyRec.key3).countP (fun k => decide (k ∈ l₂.map TidyRec.key3)) := by
  induction l₁ with
  | nil => simp [mergeTidy]
  | cons a as ih =>
    simp only [mergeTidy, List.flatMap_cons, List.length_append, List.length_map,
      List.map_cons, List.countP_cons]
    rw [filter_key_length l₂ a.key3 hnd]
    have ihh : (mergeTidy as l₂).length =
        (as.map TidyRec.key3).countP (fun k => decide (k ∈ l₂.map TidyRec.key3)) := ih
    simp only [mergeTidy] at ihh
    rw [ihh]
    by_cases h : a.key3 ∈ l₂.map TidyRec.key3
    · simp [h, Nat.add_comm]
    · simp [h]

theorem mergeTidy_mem_keys (l₁ l₂ : List TidyRec) (m : MRec) (hm : m ∈ mergeTidy l₁ l₂) :
    (m.code, m.name, m.year) ∈ l₁.map TidyRec.key3 ∧
      (m.code, m.name, m.year) ∈ l₂.map TidyRec.key3 := by
  simp only [mergeTidy, List.mem_flatMap, List.mem_map, List.mem_filter,
    decide_eq_true_eq] at hm
  obtain ⟨a, ha, b, ⟨hb, hk⟩, rfl⟩ := hm
  constructor
  · exact List.mem_map.2 ⟨a, ha, rfl⟩
  · refine List.mem_map.2 ⟨b, hb, ?_⟩
    simpa [TidyRec.key3] using hk

/-! The `idxmax`/`idxmin` failure mode on an all-NaN series. -/

theorem idxmaxPct_all_nan (fv : List JRecP) (h : ∀ r ∈ fv, r.pctChange = .nan) :
    idxmaxPct fv = none := by
  unfold idxmaxPct
  have : ∀ (l : List JRecP) (acc : Option JRecP), (∀ r ∈ l, r.pctChange = PVal.nan) →
      l.foldl (fun acc r =>
        match r.pctChange with
        | .nan => acc
        | v =>
          match acc with
          | none => some r
          | some best => if pvalGt v best.pctChange then some r else acc) acc = acc := by
    intro l
    induction l with
    | nil => intro acc _; rfl
    | cons r rs ih =>
      intro acc hl
      have hr : r.pctChange = PVal.nan := hl r (List.mem_cons_self r rs)
      simp only [List.foldl_cons, hr]
      exact ih acc fun x hx => hl x (List.mem_cons_of_mem r hx)
  exact this fv none h

/-! Concrete evaluations of the pipeline on the spec's example scenarios. -/

theorem pipeline_exDf2 :
    pipelinePct exDf2 =
      [exA2000.withPct .nan, exA2001.withPct (.num 10), exA2002.withPct (.num (-10))] := by
  norm_num +decide [pipelinePct, computePct, computePctGo, sortNameYear, List.insertionSort,
    List.orderedInsert, pushPrice, List.lookup, pctStep, rnd2, roundEven, JRec.withPct,
    exDf2, exA2000, exA2001, exA2002]

theorem pipeline_exZdf :
    pipelinePct exZdf = [exZ2000.withPct .nan, exZ2001.withPct .pinf] := by
  norm_num +decide [pipelinePct, computePct, computePctGo, sortNameYear, List.insertionSort,
    List.orderedInsert, pushPrice, List.lookup, pctStep, rnd2, roundEven, JRec.withPct,
    exZdf, exZ2000, exZ2001]

/-- Every melted record's `Year` label is one of the table's column labels. -/
theorem melt_year_mem (t : WideTable) (r : TidyRec) (hr : r ∈ melt t) :
    r.year ∈ t.yearCols := by
  unfold melt at hr
  simp only [List.mem_flatMap] at hr
  obtain ⟨ji, hji, hr⟩ := hr
  simp only [List.mem_filterMap] at hr
  obtain ⟨row, _, hmap⟩ := hr
  rcases Option.map_eq_some'.1 hmap with ⟨v, _, hv⟩
  have hy : r.year = ji.2 := by rw [← hv]
  rw [hy]
  obtain ⟨hlt, he⟩ := List.getElem?_eq_some.1 (List.mem_enum_iff_getElem?.1 hji)
  exact he ▸ List.getElem_mem hlt

/-- C1 (corrected): the source strips the textual prefix from the
house-price sheet's year-column labels only; the income sheet is melted
with its labels untouched.  On the house-price side the stripped label of
a prefixed column is the bare year string and casts to an integer. -/
theorem reshaper_strips_only_house_price_labels :
    (∀ (t : WideTable) (r : TidyRec), r ∈ reshape1a t →
        ∃ c ∈ t.yearCols, r.year = stripYearLabel c) ∧
    (∀ (t : WideTable) (r : TidyRec), r ∈ reshape1b t → r.year ∈ t.yearCols) ∧
    stripYearLabel "Year ending Sep 2024" = "2024" ∧
    strToInt? "2024" = some 2024 := by
  refine ⟨?_, ?_, by decide, by decide⟩
  · intro t r hr
    have := melt_year_mem _ r hr
    simp only [List.mem_map] at this
    obtain ⟨c, hc, hcy⟩ := this
    exact ⟨c, hc, hcy.symm⟩
  · intro t r hr
    exact melt_year_mem t r hr

/-- C1 (witness): the stripped house-price label "2024" comes from a
prefixed column of the example sheet, and the income sheet's label is
carried through verbatim. -/
theorem reshaper_strips_only_house_price_labels_witness :
    (∃ c ∈ exSheet1a.yearCols,
        (⟨"E1", "London", "2024", 100⟩ : TidyRec).year = stripYearLabel c) ∧
      (⟨"E1", "London", "Year ending Sep 2020", 100⟩ : TidyRec).year ∈ exSheet1b.yearCols :=
  ⟨reshaper_strips_only_house_price_labels.1 exSheet1a ⟨"E1", "London", "2024", 100⟩ (by decide),
   reshaper_strips_only_house_price_labels.2.1 exSheet1b
     ⟨"E1", "London", "Year ending Sep 2020", 100⟩ (by decide)⟩

/-- C1 (counterexample): a prefixed year column of the income sheet
reaches the melted records unstripped, and that label does not cast to an
integer — refuting the claim that both sheets' labels are stripped to bare
year strings. -/
theorem income_sheet_label_not_bare_year :
    (reshape1b exSheet1b).map (fun r => r.year) = ["Year ending Sep 2020"] ∧
      strToInt? "Year ending Sep 2020" = none := by
  decide

/-- C2 (confirmed): in the sorted joined table, a record directly preceded
by a record of the same region gets
`(HousePrice[i] - HousePrice[i-1]) / HousePrice[i-1] * 100` rounded to
2 dp; the first record of each region's group gets NaN; and on the spec's
example (prices 100, 110, 99 for 2000-2002) the column is
[NaN, 10.0, -10.0]. -/
theorem pct_change_per_region_formula :
    (∀ (df pre : List JRec) (r₁ r₂ : JRec) (post : List JRec),
        sortNameYear df = pre ++ r₁ :: r₂ :: post →
        r₂.name = r₁.name →
        r₁.housePrice ≠ 0 →
        (pipelinePct df)[pre.length + 1]? =
          some (r₂.withPct
            (.num (rnd2 ((r₂.housePrice - r₁.housePrice) / r₁.housePrice * 100))))) ∧
    (∀ (df pre : List JRec) (r : JRec) (post : List JRec),
        sortNameYear df = pre ++ r :: post →
        (∀ x ∈ pre, x.name ≠ r.name) →
        (pipelinePct df)[pre.length]? = some (r.withPct .nan)) ∧
    pipelinePct exDf2 =
      [exA2000.withPct .nan, exA2001.withPct (.num 10), exA2002.withPct (.num (-10))] := by
  refine ⟨?_, pipelinePct_get_first, pipeline_exDf2⟩
  intro df pre r₁ r₂ post hs hn h0
  rw [pipelinePct_get_adjacent df pre r₁ r₂ post hs hn]
  simp [pctStep, h0]

/-- C2 (witness): the example's year-2001 record carries the formula value
computed from the year-2000 price. -/
theorem pct_change_per_region_formula_witness :
    (pipelinePct exDf2)[1]? =
      some (exA2001.withPct
        (.num (rnd2 ((exA2001.housePrice - exA2000.housePrice) / exA2000.housePrice * 100)))) :=
  pct_change_per_region_formula.1 exDf2 [] exA2000 exA2001 [exA2002]
    (by decide) (by decide) (by decide)

/-- C3 (confirmed): with unique `(Code, Name, Year)` keys on both sides,
the inner merge yields one output row per key of the left table that also
occurs in the right table — extra non-overlapping keys contribute nothing —
and every output row's key occurs in both inputs (rows with unmatched keys
are dropped, not an error). -/
theorem joiner_inner_join_cardinality :
    (∀ (l₁ l₂ : List TidyRec),
        (l₁.map TidyRec.key3).Nodup → (l₂.map TidyRec.key3).Nodup →
        (mergeTidy l₁ l₂).length =
          (l₁.map TidyRec.key3).countP (fun k => decide (k ∈ l₂.map TidyRec.key3))) ∧
    (∀ (l₁ l₂ : List TidyRec) (m : MRec), m ∈ mergeTidy l₁ l₂ →
        (m.code, m.name, m.year) ∈ l₁.map TidyRec.key3 ∧
          (m.code, m.name, m.year) ∈ l₂.map TidyRec.key3) :=
  ⟨fun l₁ l₂ _ h₂ => mergeTidy_length l₁ l₂ h₂, mergeTidy_mem_keys⟩

/-- C3 (witness): on tables with two common keys and one extra key on each
side, the join has exactly two rows. -/
theorem joiner_inner_join_cardinality_witness :
    (mergeTidy exL1 exL2).length = 2 :=
  (joiner_inner_join_cardinality.1 exL1 exL2 (by decide) (by decide)).trans (by decide)

/-- C5 (confirmed): a record whose same-region predecessor in the sorted
table has a zero price and whose own price is positive gets positive
infinity as its pct change, carried unchanged into the joined table; on
the spec's example (prices 0 then 50) the column is [NaN, +inf]. -/
theorem zero_prior_price_gives_infinity :
    (∀ (df pre : List JRec) (r₁ r₂ : JRec) (post : List JRec),
        sortNameYear df = pre ++ r₁ :: r₂ :: post →
        r₂.name = r₁.name →
        r₁.housePrice = 0 →
        0 < r₂.housePrice →
        (pipelinePct df)[pre.length + 1]? = some (r₂.withPct .pinf)) ∧
    pipelinePct exZdf = [exZ2000.withPct .nan, exZ2001.withPct .pinf] := by
  refine ⟨?_, pipeline_exZdf⟩
  intro df pre r₁ r₂ post hs hn h0 hpos
  rw [pipelinePct_get_adjacent df pre r₁ r₂ post hs hn]
  simp [pctStep, h0, hpos]

/-- C5 (witness): the year-2001 record of the zero-division example carries
positive infinity. -/
theorem zero_prior_price_gives_infinity_witness :
    (pipelinePct exZdf)[1]? = some (exZ2001.withPct .pinf) :=
  zero_prior_price_gives_infinity.1 exZdf [] exZ2000 exZ2001 []
    (by decide) (by decide) (by decide) (by decide)

/-- C6 (confirmed): with distinct (Name, Year) keys, sorting and then
computing the pct-change column gives the same table for every permutation
of the input rows — the computation does not depend on the incoming row
order. -/
theorem pct_change_order_independent :
    ∀ (l l' : List JRec), List.Perm l' l → (l.map JRec.key2).Nodup →
      pipelinePct l' = pipelinePct l := by
  intro l l' hp hnd
  unfold pipelinePct
  rw [sortNameYear_eq_of_perm l l' hp hnd]

/-- C6 (witness): reversing the example table leaves the computed output
unchanged. -/
theorem pct_change_order_independent_witness :
    pipelinePct exDf2.reverse = pipelinePct exDf2 :=
  pct_change_order_independent exDf2 exDf2.reverse exDf2.reverse_perm (by decide)

/-- C4 (code bug): on an empty filtered view the guarded insights block
does report "no data" and the average metrics yield NaN without raising,
but the per-region summary list is empty, so the sidebar headline metric
`pct_increase_df['% Change'].mode().iloc[0]` raises (the empty frame has
no `% Change` column) instead of reporting "no data". -/
theorem empty_selection_summary_metric_raises :
    insightBlock [] = .ok .noData ∧
    avgHousePrice [] = .nan ∧
    percentIncrease [] = [] ∧
    summaryMetric [] = .error "KeyError" :=
  ⟨rfl, rfl, rfl, rfl⟩

/-- C7 (confirmed): the filter keeps exactly the records whose region is
selected and whose year lies in the inclusive range, and an empty region
selection yields an empty view. -/
theorem filter_region_year_membership :
    ∀ (regions : List String) (y0 y1 : ℤ), y0 ≤ y1 →
      ∀ (l : List JRecP),
        (∀ r : JRecP, r ∈ filterView regions y0 y1 l ↔
            r ∈ l ∧ r.name ∈ regions ∧ y0 ≤ r.year ∧ r.year ≤ y1) ∧
        filterView [] y0 y1 l = [] := by
  intro regions y0 y1 _ l
  constructor
  · intro r
    simp [filterView, List.mem_filter, and_assoc]
  · simp [filterView]

/-- C7 (witness): on the example table the year-2001 record of region "A"
is kept by the filter for regions {"A"} and years [2001, 2002], and the
empty selection gives the empty view. -/
theorem filter_region_year_membership_witness :
    ((exA2001.withPct (.num 10)) ∈ filterView ["A"] 2001 2002 (pipelinePct exDf2) ↔
        (exA2001.withPct (.num 10)) ∈ pipelinePct exDf2 ∧
          (exA2001.withPct (.num 10)).name ∈ (["A"] : List String) ∧
          (2001 : ℤ) ≤ (exA2001.withPct (.num 10)).year ∧
          (exA2001.withPct (.num 10)).year ≤ 2002) ∧
      filterView [] 2001 2002 (pipelinePct exDf2) = [] :=
  ⟨(filter_region_year_membership ["A"] 2001 2002 (by decide) (pipelinePct exDf2)).1 _,
   (filter_region_year_membership ["A"] 2001 2002 (by decide) (pipelinePct exDf2)).2⟩

/-- C8 (confirmed): the pct-change column is computed on the full joined
table before filtering and the filter only selects rows — every filtered
record appears unchanged in the full table; in particular filtering the
example to years [2001, 2002] leaves the 2001 record carrying the value
10.0 derived from the out-of-range year-2000 price. -/
theorem filter_keeps_precomputed_pct_change :
    (∀ (l : List JRec) (regions : List String) (y0 y1 : ℤ) (x : JRecP),
        x ∈ filterView regions y0 y1 (pipelinePct l) → x ∈ pipelinePct l) ∧
    filterView ["A"] 2001 2002 (pipelinePct exDf2) =
      [exA2001.withPct (.num 10), exA2002.withPct (.num (-10))] := by
  constructor
  · intro l regions y0 y1 x hx
    exact List.mem_of_mem_filter hx
  · rw [pipeline_exDf2]
    decide

/-- C8 (witness): the filtered 2001 record is a record of the full table. -/
theorem filter_keeps_precomputed_pct_change_witness :
    (exA2001.withPct (.num 10)) ∈ pipelinePct exDf2 :=
  filter_keeps_precomputed_pct_change.1 exDf2 ["A"] 2001 2002 _
    (by rw [pipeline_exDf2]; decide)

/-- C9 (confirmed): the `df_filtered.empty` guard only covers the empty
view; on any non-empty view whose pct-change column is all NaN, `idxmax`
finds no value and the insight block fails instead of reporting
"no data". -/
theorem insight_idxmax_fails_on_all_nan :
    ∀ (fv : List JRecP), fv ≠ [] → (∀ r ∈ fv, r.pctChange = .nan) →
      insightBlock fv = .error () := by
  intro fv hne hall
  obtain ⟨x, xs, rfl⟩ := List.exists_cons_of_ne_nil hne
  unfold insightBlock
  rw [idxmaxPct_all_nan _ hall]
  rfl

/-- C9 (witness): a single-record view holding the first (NaN) record of a
region makes the insight block fail. -/
theorem insight_idxmax_fails_on_all_nan_witness :
    insightBlock [exA2000.withPct .nan] = .error () :=
  insight_idxmax_fails_on_all_nan [exA2000.withPct .nan] (by simp)
    (by intro r hr; rw [List.mem_singleton.1 hr]; rfl)

/-- C10 (confirmed): each per-region summary row computes
`(end - start) / start * 100` rounded to 2 dp from the region's first and
last prices, except that a zero start price yields NaN — unlike the
year-over-year metric, which maps a zero previous price to infinity. -/
theorem summary_zero_start_is_nan :
    (∀ (fv : List JRecP) (region : String) (row : SummaryRow),
        regionRow fv region = some row →
        (row.startPrice = 0 → row.pctChange = .nan) ∧
          (row.startPrice ≠ 0 →
            row.pctChange =
              .num (rnd2 ((row.endPrice - row.startPrice) / row.startPrice * 100)))) ∧
    pctStep 0 50 = .pinf := by
  constructor
  · intro fv region row h
    unfold regionRow at h
    cases hs : sortYear (fv.filter fun r => r.name == region) with
    | nil => rw [hs] at h; exact absurd h (by simp)
    | cons r rs =>
      rw [hs] at h
      obtain rfl := (Option.some.inj h).symm
      constructor
      · intro h0
        dsimp only at h0 ⊢
        rw [if_pos h0]
      · intro h0
        dsimp only at h0 ⊢
        rw [if_neg h0]
  · decide

/-- C10 (witness): the region with prices 0 then 50 gets NaN in the
summary (while the year-over-year metric would give +inf). -/
theorem summary_zero_start_is_nan_witness :
    (⟨"Z0", 2000, 2001, 0, 50, .nan⟩ : SummaryRow).pctChange = .nan :=
  (summary_zero_start_is_nan.1 exFvZ0 "Z0" ⟨"Z0", 2000, 2001, 0, 50, .nan⟩ (by decide)).1
    (by decide)
